import Mathlib

/-!
Verification of the rust-material-color-utilities repository.

This file gives a shallow embedding, in Lean 4, of the color-science core of
the repository: the hex-string parser (utils/string_utils.rs), the color-space
primitives (utils/color_utils.rs, utils/math_utils.rs), the CAM16 appearance
model (hct/cam16.rs, hct/viewing_conditions.rs), the HCT wrapper (hct/hct.rs)
and the tonal-palette key-color search and tone cache (palettes/tonal_palette.rs).

Conventions of the embedding:
- Rust `u32`/`u8`/`i32` values are embedded as `Nat`/`Int` with explicit
  masking where the source masks.
- Rust `f64` arithmetic is embedded as real arithmetic (`ℝ`); `powf` is
  `Real.rpow`, `ln`/`exp`/`atan`/`cos`/`sin`/`sqrt` are the Mathlib real
  functions.  IEEE special values (NaN, infinities) are not representable in
  `ℝ`; where a claim hinges on them (the `delinearized` totality claim) a
  dedicated type `F64` with explicit NaN/±infinity constructors is used.
- Rust strings are embedded as their UTF-8 byte lists (`List ℕ`), because the
  source indexes and measures strings by bytes.
- Functions that can panic are embedded with result type `Option`.
- The gamut solver `solve_to_int` lives in `hct/hct_solver.rs`, which is not
  part of the provided sources (only its callers are); it is modelled from the
  specification, and the tonal-palette functions that call `Hct::from_hct`
  are parameterized by the renderer they invoke.
-/

set_option maxHeartbeats 1000000

open Real

/-! ## utils/math_utils.rs -/

/-- Embedding of `math_utils::clamp_int`. -/
def clamp_int (min max input : ℤ) : ℤ :=
  if input < min then min else if input > max then max else input

/-- Embedding of Rust `f64::signum` as used in cam16.rs: `1.0` for
nonnegative values (IEEE `+0.0` has signum `1.0`), `-1.0` for negatives.
The IEEE value `-0.0` is not representable in `ℝ`. -/
noncomputable def rust_signum (x : ℝ) : ℝ := if x < 0 then -1 else 1

/-- Embedding of Rust `f64::round`: round half away from zero. -/
noncomputable def rust_round (x : ℝ) : ℤ :=
  if x < 0 then -⌊-x + 1 / 2⌋ else ⌊x + 1 / 2⌋

/-- Embedding of Rust saturating float-to-`i32` cast (`as i32`) for a finite
real value. -/
def i32_saturate (z : ℤ) : ℤ :=
  if z < -(2 ^ 31) then -(2 ^ 31) else if z > 2 ^ 31 - 1 then 2 ^ 31 - 1 else z

/-- Embedding of Rust `f64::atan2` (IEEE atan2) on real arguments:
`atan2(y, x)`. Signed-zero distinctions are not representable in `ℝ`;
`atan2 0 0 = 0` as for IEEE `+0.0` arguments. -/
noncomputable def rust_atan2 (y x : ℝ) : ℝ :=
  if 0 < x then Real.arctan (y / x)
  else if x < 0 then
    (if 0 ≤ y then Real.arctan (y / x) + Real.pi else Real.arctan (y / x) - Real.pi)
  else
    (if 0 < y then Real.pi / 2 else if y < 0 then -(Real.pi / 2) else 0)

/-- Embedding of Rust `f64::cbrt` (cube root, defined on negatives). -/
noncomputable def rust_cbrt (x : ℝ) : ℝ :=
  if x < 0 then -((-x) ^ ((1 : ℝ) / 3)) else x ^ ((1 : ℝ) / 3)

/-- Embedding of `math_utils::lerp`. -/
def lerp (start stop amount : ℝ) : ℝ := (1 - amount) * start + amount * stop

/-! ## utils/string_utils.rs

Strings are embedded as UTF-8 byte lists. `argb_from_hex` and its helper
`parse_int_hex` can panic in the source (`panic!` on a bad length,
`.unwrap()` on a failed parse); the embedding returns `none` in those cases.
-/

/-- Whether a byte is an ASCII hexadecimal digit (`0-9`, `a-f`, `A-F`),
as accepted by `u32::from_str_radix(_, 16)`. -/
def isHexDigitByte (c : ℕ) : Bool :=
  (48 ≤ c && c ≤ 57) || (97 ≤ c && c ≤ 102) || (65 ≤ c && c ≤ 70)

/-- Numeric value of an ASCII hexadecimal digit byte. -/
def hexDigitVal (c : ℕ) : ℕ :=
  if 97 ≤ c then c - 87 else if 65 ≤ c then c - 55 else c - 48

/-- Value of a nonempty all-hex-digit byte list, most significant digit
first; `none` if the list is empty or contains a non-digit. -/
def hexDigitsVal (l : List ℕ) : Option ℕ :=
  if l = [] then none
  else if l.all isHexDigitByte then
    some (l.foldl (fun a c => a * 16 + hexDigitVal c) 0)
  else none

/-- Embedding of `string_utils::parse_int_hex`, i.e. of
`u32::from_str_radix(value, 16).unwrap()`: an optional leading `+` sign is
accepted, a leading `-` sign is accepted only when the digits denote zero,
and the value must fit in a `u32`.  `none` models the panic of `.unwrap()`. -/
def parse_int_hex (l : List ℕ) : Option ℕ :=
  match l with
  | 43 :: rest => (hexDigitsVal rest).bind fun v => if v < 2 ^ 32 then some v else none
  | 45 :: rest => (hexDigitsVal rest).bind fun v => if v = 0 then some 0 else none
  | _ => (hexDigitsVal l).bind fun v => if v < 2 ^ 32 then some v else none

/-- Byte slice `l[a..b]`, as produced by Rust range indexing on `str` bytes. -/
def listSlice (l : List ℕ) (a b : ℕ) : List ℕ := (l.drop a).take (b - a)

/-- Packing of the parsed channels, from the final expression of
`argb_from_hex`: `(255 << 24) | ((r & 0xff) << 16) | ((g & 0xff) << 8) | (b & 0xff)`. -/
def packArgbChannels (r g b : ℕ) : ℕ :=
  (255 <<< 24) ||| ((r &&& 255) <<< 16) ||| ((g &&& 255) <<< 8) ||| (b &&& 255)

/-- Embedding of `string_utils::argb_from_hex`.  `trim_start_matches('#')`
removes every leading `#` byte; the byte length of the remainder selects the
3-, 6- or 8-digit branch; any other length, or any failing group parse,
panics in the source and is `none` here.  In the 8-digit branch only the
byte slices `2..4`, `4..6`, `6..8` are parsed; bytes `0..2` are ignored. -/
def argb_from_hex (s : List ℕ) : Option ℕ :=
  let hex := s.dropWhile (fun c => c == 35)
  if hex.length = 3 then
    (parse_int_hex (listSlice hex 0 1 ++ listSlice hex 0 1)).bind fun r =>
    (parse_int_hex (listSlice hex 1 2 ++ listSlice hex 1 2)).bind fun g =>
    (parse_int_hex (listSlice hex 2 3 ++ listSlice hex 2 3)).map fun b =>
      packArgbChannels r g b
  else if hex.length = 6 then
    (parse_int_hex (listSlice hex 0 2)).bind fun r =>
    (parse_int_hex (listSlice hex 2 4)).bind fun g =>
    (parse_int_hex (listSlice hex 4 6)).map fun b =>
      packArgbChannels r g b
  else if hex.length = 8 then
    (parse_int_hex (listSlice hex 2 4)).bind fun r =>
    (parse_int_hex (listSlice hex 4 6)).bind fun g =>
    (parse_int_hex (listSlice hex 6 8)).map fun b =>
      packArgbChannels r g b
  else none

/-- The exact domain on which `argb_from_hex` succeeds: after stripping all
leading `#` bytes the remainder has byte length 3, 6 or 8, and every group
the parser examines parses as a `u32` hex literal (in the 8-digit form the
two alpha bytes are not examined). -/
def hex_shape_ok (s : List ℕ) : Bool :=
  let hex := s.dropWhile (fun c => c == 35)
  (hex.length == 3
      && (parse_int_hex (listSlice hex 0 1 ++ listSlice hex 0 1)).isSome
      && (parse_int_hex (listSlice hex 1 2 ++ listSlice hex 1 2)).isSome
      && (parse_int_hex (listSlice hex 2 3 ++ listSlice hex 2 3)).isSome)
    || (hex.length == 6
      && (parse_int_hex (listSlice hex 0 2)).isSome
      && (parse_int_hex (listSlice hex 2 4)).isSome
      && (parse_int_hex (listSlice hex 4 6)).isSome)
    || (hex.length == 8
      && (parse_int_hex (listSlice hex 2 4)).isSome
      && (parse_int_hex (listSlice hex 4 6)).isSome
      && (parse_int_hex (listSlice hex 6 8)).isSome)

/-- The failure condition asserted by claim C8, in the spec's words: after an
optional single leading `#`, the input consists of 3, 6 or 8 hex digits. -/
def claim_shape (s : List ℕ) : Bool :=
  let hex := match s with
    | 35 :: rest => rest
    | _ => s
  (hex.length == 3 || hex.length == 6 || hex.length == 8) && hex.all isHexDigitByte

/-- Counterexample to claim C8 as stated: `"zz123456"` contains non-hex
bytes (the unexamined alpha position of the 8-digit form), `"##ff0000"` has
two leading `#` bytes, and `"+12345"` contains a `+` sign accepted by
`u32::from_str_radix`; the claim says all three must fail, yet
`argb_from_hex` returns a color for each. -/
theorem c8_counterexample :
    claim_shape [122, 122, 49, 50, 51, 52, 53, 54] = false
      ∧ (argb_from_hex [122, 122, 49, 50, 51, 52, 53, 54]).isSome = true
      ∧ claim_shape [35, 35, 102, 102, 48, 48, 48, 48] = false
      ∧ (argb_from_hex [35, 35, 102, 102, 48, 48, 48, 48]).isSome = true
      ∧ claim_shape [43, 49, 50, 51, 52, 53] = false
      ∧ (argb_from_hex [43, 49, 50, 51, 52, 53]).isSome = true := by
  decide

/-- Amended claim C8: `argb_from_hex` fails (panics) exactly when the input,
after stripping ALL leading `#` bytes, does not have byte length 3, 6 or 8,
or one of the groups the parser examines is not a valid `u32` hex literal —
where the 8-digit form never examines its two alpha bytes, and the literal
syntax also admits a leading `+` sign (or a `-` sign on a zero value); every
accepted input yields a color. -/
theorem c8_amended (s : List ℕ) : (argb_from_hex s).isSome = hex_shape_ok s := by
  simp only [argb_from_hex, hex_shape_ok]
  by_cases h3 : (s.dropWhile (fun c => c == 35)).length = 3
  · cases hr : parse_int_hex (listSlice (s.dropWhile (fun c => c == 35)) 0 1 ++
        listSlice (s.dropWhile (fun c => c == 35)) 0 1) <;>
    cases hg : parse_int_hex (listSlice (s.dropWhile (fun c => c == 35)) 1 2 ++
        listSlice (s.dropWhile (fun c => c == 35)) 1 2) <;>
    cases hb : parse_int_hex (listSlice (s.dropWhile (fun c => c == 35)) 2 3 ++
        listSlice (s.dropWhile (fun c => c == 35)) 2 3) <;>
    simp [h3, hr, hg, hb]
  · by_cases h6 : (s.dropWhile (fun c => c == 35)).length = 6
    · cases hr : parse_int_hex (listSlice (s.dropWhile (fun c => c == 35)) 0 2) <;>
      cases hg : parse_int_hex (listSlice (s.dropWhile (fun c => c == 35)) 2 4) <;>
      cases hb : parse_int_hex (listSlice (s.dropWhile (fun c => c == 35)) 4 6) <;>
      simp [h3, h6, hr, hg, hb]
    · by_cases h8 : (s.dropWhile (fun c => c == 35)).length = 8
      · cases hr : parse_int_hex (listSlice (s.dropWhile (fun c => c == 35)) 2 4) <;>
        cases hg : parse_int_hex (listSlice (s.dropWhile (fun c => c == 35)) 4 6) <;>
        cases hb : parse_int_hex (listSlice (s.dropWhile (fun c => c == 35)) 6 8) <;>
        simp [h3, h6, h8, hr, hg, hb]
      · simp [h3, h6, h8]

/-! ## utils/color_utils.rs -/

/-- Embedding of `color_utils::red_from_argb` (`argb >> 16 & 255`). -/
def red_from_argb (argb : ℕ) : ℕ := (argb >>> 16) &&& 255

/-- Embedding of `color_utils::green_from_argb` (`argb >> 8 & 255`). -/
def green_from_argb (argb : ℕ) : ℕ := (argb >>> 8) &&& 255

/-- Embedding of `color_utils::blue_from_argb` (`argb & 255`). -/
def blue_from_argb (argb : ℕ) : ℕ := argb &&& 255

/-- Embedding of `color_utils::alpha_from_argb` (`argb >> 24 & 255`). -/
def alpha_from_argb (argb : ℕ) : ℕ := (argb >>> 24) &&& 255

/-- Embedding of `color_utils::linearized`. -/
noncomputable def linearized (rgb_component : ℕ) : ℝ :=
  let normalized : ℝ := (rgb_component : ℝ) / 255
  if normalized ≤ 0.040449936 then normalized / 12.92 * 100
  else ((normalized + 0.055) / 1.055) ^ (2.4 : ℝ) * 100

/-- Embedding of `color_utils::delinearized` on a finite input: the piecewise
gamma re-encoding, then `.round()`, the saturating `as i32` cast, and
`clamp_int(0, 255, _)` (the final `as u8` is the identity on `0..=255`). -/
noncomputable def delinearized (rgb_component : ℝ) : ℕ :=
  let normalized : ℝ := rgb_component / 100
  let d : ℝ :=
    if normalized ≤ 0.0031308 then normalized * 12.92
    else 1.055 * normalized ^ ((1 : ℝ) / 2.4) - 0.055
  (clamp_int 0 255 (i32_saturate (rust_round (d * 255)))).toNat

/-- An IEEE f64 value: a finite real, NaN, or an infinity. Used to settle the
totality claim about `delinearized`, which quantifies over the full f64
domain including the special values. -/
inductive F64 where
  | finite (x : ℝ)
  | nan
  | posInf
  | negInf

/-- Embedding of `color_utils::delinearized` on the full f64 domain.
For a finite argument the f64 evaluation agrees with the real evaluation
after the saturating cast and the clamp (the only possible intermediate
overflow, `d * 255` for a huge negative input on the linear branch, goes to
`-∞`, is cast to `i32::MIN` and clamped to 0, the same result the exact real
value yields through `i32_saturate` and `clamp_int`).  For the special
values the IEEE steps give:
- NaN: `NaN/100 = NaN`; `NaN <= 0.0031308` is false, so the power branch
  runs and propagates NaN; `NaN.round() = NaN`; `NaN as i32 = 0`;
  `clamp_int 0 255 0 = 0`.
- `+∞`: power branch; `∞.powf(1/2.4) = ∞`; `∞.round() = ∞`;
  `∞ as i32 = i32::MAX`; clamped to 255.
- `-∞`: `-∞ <= 0.0031308`, so the linear branch runs; `-∞ * 12.92 = -∞`;
  `-∞ as i32 = i32::MIN`; clamped to 0. -/
noncomputable def delinearizedF64 : F64 → ℕ
  | .finite x => delinearized x
  | .nan => 0
  | .posInf => 255
  | .negInf => 0

/-- Claim C9: `delinearized` is total on the whole f64 domain — finite
values of any magnitude, infinities and NaN — and always returns a channel
value in `0..=255`; the result is rounded then clamped, and no panic is
reachable (the embedding is a total function into `ℕ`, and the result is
bounded by 255; the lower bound 0 holds because the result is a `ℕ`). -/
theorem c9_delinearized_total (v : F64) : delinearizedF64 v ≤ 255 := by
  cases v with
  | finite x =>
    simp only [delinearizedF64, delinearized]
    generalize rust_round _ = z
    unfold clamp_int i32_saturate
    split_ifs <;> omega
  | nan => simp [delinearizedF64]
  | posInf => simp [delinearizedF64]
  | negInf => simp [delinearizedF64]

/-- Embedding of `color_utils::lab_f`. -/
noncomputable def lab_f (t : ℝ) : ℝ :=
  if t > 216 / 24389 then t ^ ((1 : ℝ) / 3) else (24389 / 27 * t + 16) / 116

/-- Embedding of `color_utils::lab_invf`. -/
noncomputable def lab_invf (ft : ℝ) : ℝ :=
  let ft3 := ft * ft * ft
  if ft3 > 216 / 24389 then ft3 else (116 * ft - 16) / (24389 / 27)

/-- Embedding of `color_utils::y_from_lstar`. -/
noncomputable def y_from_lstar (lstar : ℝ) : ℝ := 100 * lab_invf ((lstar + 16) / 116)

/-- Embedding of `color_utils::xyz_from_argb`: linearize the channels and
apply the `SRGB_TO_XYZ` matrix (`math_utils::matrix_multiply` with the fixed
constant matrix, written out). -/
noncomputable def xyz_from_argb (argb : ℕ) : ℝ × ℝ × ℝ :=
  let r := linearized (red_from_argb argb)
  let g := linearized (green_from_argb argb)
  let b := linearized (blue_from_argb argb)
  (0.41233895 * r + 0.35762064 * g + 0.18051042 * b,
   0.2126 * r + 0.7152 * g + 0.0722 * b,
   0.01932141 * r + 0.11916382 * g + 0.95034478 * b)

/-- Embedding of `color_utils::lstar_from_argb`. -/
noncomputable def lstar_from_argb (argb : ℕ) : ℝ :=
  116 * lab_f ((xyz_from_argb argb).2.1 / 100) - 16

/-! ## hct/viewing_conditions.rs -/

/-- Embedding of the `ViewingConditions` struct: the precomputed
appearance-model constants.  `rgb_d0`, `rgb_d1`, `rgb_d2` are the three
entries of the source's `rgb_d: [f64; 3]`. -/
structure ViewingConditions where
  n : ℝ
  aw : ℝ
  nbb : ℝ
  ncb : ℝ
  c : ℝ
  nc : ℝ
  rgb_d0 : ℝ
  rgb_d1 : ℝ
  rgb_d2 : ℝ
  fl : ℝ
  f_l_root : ℝ
  z : ℝ

/-- Embedding of `ViewingConditions::new`. -/
noncomputable def ViewingConditions.new (white_point : ℝ × ℝ × ℝ)
    (adapting_luminance background_lstar surround : ℝ)
    (discounting_illuminant : Bool) : ViewingConditions :=
  let r_w := white_point.1 * 0.401288 + white_point.2.1 * 0.650173 +
    white_point.2.2 * (-0.051461)
  let g_w := white_point.1 * (-0.250268) + white_point.2.1 * 1.204414 +
    white_point.2.2 * 0.045854
  let b_w := white_point.1 * (-0.002079) + white_point.2.1 * 0.048952 +
    white_point.2.2 * 0.953127
  let f := 0.8 + surround / 10
  let c := if f ≥ 0.9 then lerp 0.59 0.69 ((f - 0.9) * 10)
    else lerp 0.525 0.59 ((f - 0.8) * 10)
  let d0 := if discounting_illuminant then 1
    else f * (1 - (1 / 3.6) * Real.exp ((-adapting_luminance - 42) / 92))
  let d := if d0 > 1 then 1 else if d0 < 0 then 0 else d0
  let nc := f
  let rgb_d0 := d * (100 / r_w) + 1 - d
  let rgb_d1 := d * (100 / g_w) + 1 - d
  let rgb_d2 := d * (100 / b_w) + 1 - d
  let k := 1 / (5 * adapting_luminance + 1)
  let k4 := k * k * k * k
  let k4_f := 1 - k4
  let fl := k4 * adapting_luminance +
    0.1 * k4_f * k4_f * rust_cbrt (5 * adapting_luminance)
  let n := y_from_lstar background_lstar / white_point.2.1
  let z := 1.48 + Real.sqrt n
  let nbb := 0.725 / n ^ (0.2 : ℝ)
  let ncb := nbb
  let rgb_a_factor0 := ((fl * rgb_d0 * r_w) / 100) ^ (0.42 : ℝ)
  let rgb_a_factor1 := ((fl * rgb_d1 * g_w) / 100) ^ (0.42 : ℝ)
  let rgb_a_factor2 := ((fl * rgb_d2 * b_w) / 100) ^ (0.42 : ℝ)
  let rgb_a0 := (400 * rgb_a_factor0) / (rgb_a_factor0 + 27.13)
  let rgb_a1 := (400 * rgb_a_factor1) / (rgb_a_factor1 + 27.13)
  let rgb_a2 := (400 * rgb_a_factor2) / (rgb_a_factor2 + 27.13)
  let aw := (2 * rgb_a0 + rgb_a1 + 0.05 * rgb_a2) * nbb
  { n := n, aw := aw, nbb := nbb, ncb := ncb, c := c, nc := nc,
    rgb_d0 := rgb_d0, rgb_d1 := rgb_d1, rgb_d2 := rgb_d2,
    fl := fl, f_l_root := fl ^ (0.25 : ℝ), z := z }

/-- Embedding of `viewing_conditions::default()` (the lazily built
process-wide instance; the `OnceLock` laziness is invisible to a pure
embedding). -/
noncomputable def default_viewing_conditions : ViewingConditions :=
  ViewingConditions.new (95.047, 100.0, 108.883)
    ((200 / Real.pi) * y_from_lstar 50 / 100) 50 2 false

/-! ## hct/cam16.rs -/

/-- Embedding of the `Cam16` struct: the nine appearance correlates. -/
structure Cam16 where
  hue : ℝ
  chroma : ℝ
  j : ℝ
  q : ℝ
  m : ℝ
  s : ℝ
  j_star : ℝ
  a_star : ℝ
  b_star : ℝ

/-- The adapted cone responses `(r_a, g_a, b_a)` computed by
`Cam16::from_int_in_viewing_conditions` (lines 98-122 of cam16.rs): channel
extraction, linearization, `SRGB_TO_XYZ`, the CAM16 matrix, chromatic
adaptation by `rgb_d`, and the non-linear adaptation
`((fl * |x_d|) / 100)^0.42`. -/
noncomputable def cam16_rgb_a_int (argb : ℕ) (vc : ViewingConditions) : ℝ × ℝ × ℝ :=
  let red := (argb &&& 0x00ff0000) >>> 16
  let green := (argb &&& 0x0000ff00) >>> 8
  let blue := argb &&& 0x000000ff
  let red_l := linearized red
  let green_l := linearized green
  let blue_l := linearized blue
  let x := 0.41233895 * red_l + 0.35762064 * green_l + 0.18051042 * blue_l
  let y := 0.2126 * red_l + 0.7152 * green_l + 0.0722 * blue_l
  let z := 0.01932141 * red_l + 0.11916382 * green_l + 0.95034478 * blue_l
  let r_c := 0.401288 * x + 0.650173 * y - 0.051461 * z
  let g_c := -0.250268 * x + 1.204414 * y + 0.045854 * z
  let b_c := -0.002079 * x + 0.048952 * y + 0.953127 * z
  let r_d := vc.rgb_d0 * r_c
  let g_d := vc.rgb_d1 * g_c
  let b_d := vc.rgb_d2 * b_c
  let r_af := ((vc.fl * |r_d|) / 100) ^ (0.42 : ℝ)
  let g_af := ((vc.fl * |g_d|) / 100) ^ (0.42 : ℝ)
  let b_af := ((vc.fl * |b_d|) / 100) ^ (0.42 : ℝ)
  ((rust_signum r_d * 400 * r_af) / (r_af + 27.13),
   (rust_signum g_d * 400 * g_af) / (g_af + 27.13),
   (rust_signum b_d * 400 * b_af) / (b_af + 27.13))

/-- Opponent channel `a = (11 r_a - 12 g_a + b_a) / 11` of
`Cam16::from_int_in_viewing_conditions`. -/
noncomputable def cam16_a_int (argb : ℕ) (vc : ViewingConditions) : ℝ :=
  (11 * (cam16_rgb_a_int argb vc).1 + -12 * (cam16_rgb_a_int argb vc).2.1 +
    (cam16_rgb_a_int argb vc).2.2) / 11

/-- Opponent channel `b = (r_a + g_a - 2 b_a) / 9` of
`Cam16::from_int_in_viewing_conditions`. -/
noncomputable def cam16_b_int (argb : ℕ) (vc : ViewingConditions) : ℝ :=
  ((cam16_rgb_a_int argb vc).1 + (cam16_rgb_a_int argb vc).2.1 -
    2 * (cam16_rgb_a_int argb vc).2.2) / 9

/-- Auxiliary `u = (20 r_a + 20 g_a + 21 b_a) / 20` of
`Cam16::from_int_in_viewing_conditions`. -/
noncomputable def cam16_u_int (argb : ℕ) (vc : ViewingConditions) : ℝ :=
  (20 * (cam16_rgb_a_int argb vc).1 + 20 * (cam16_rgb_a_int argb vc).2.1 +
    21 * (cam16_rgb_a_int argb vc).2.2) / 20

/-- Auxiliary `p2 = (40 r_a + 20 g_a + b_a) / 20` of
`Cam16::from_int_in_viewing_conditions`. -/
noncomputable def cam16_p2_int (argb : ℕ) (vc : ViewingConditions) : ℝ :=
  (40 * (cam16_rgb_a_int argb vc).1 + 20 * (cam16_rgb_a_int argb vc).2.1 +
    (cam16_rgb_a_int argb vc).2.2) / 20

/-- The hue computed by `Cam16::from_int_in_viewing_conditions` (lines
128-136 of cam16.rs): NOTE the source computes `(b / a).atan()` — the
one-argument arc tangent of the quotient — and then wraps negative degrees
by +360 and degrees ≥ 360 by -360. -/
noncomputable def cam16_hue_int (argb : ℕ) (vc : ViewingConditions) : ℝ :=
  let atan2 := Real.arctan (cam16_b_int argb vc / cam16_a_int argb vc)
  let atan_degrees := atan2 * 180 / Real.pi
  if atan_degrees < 0 then atan_degrees + 360
  else if atan_degrees ≥ 360 then atan_degrees - 360
  else atan_degrees

/-- Embedding of `Cam16::from_int_in_viewing_conditions` (lines 94-170). -/
noncomputable def cam16_from_int_in_vc (argb : ℕ) (vc : ViewingConditions) : Cam16 :=
  let a := cam16_a_int argb vc
  let b := cam16_b_int argb vc
  let u := cam16_u_int argb vc
  let p2 := cam16_p2_int argb vc
  let hue := cam16_hue_int argb vc
  let hue_radians := hue * Real.pi / 180
  let ac := p2 * vc.nbb
  let j := 100 * (ac / vc.aw) ^ (vc.c * vc.z)
  let q := (4 / vc.c) * Real.sqrt (j / 100) * (vc.aw + 4) * vc.f_l_root
  let hue_prime := if hue < 20.14 then hue + 360 else hue
  let e_hue := 0.25 * Real.cos (hue_prime * Real.pi / 180 + 2) + 3.8
  let p1 := (50000 / 13) * e_hue * vc.nc * vc.ncb
  let t := p1 * Real.sqrt (a ^ 2 + b ^ 2) / (u + 0.305)
  let alpha := t ^ (0.9 : ℝ) * (1.64 - (0.29 : ℝ) ^ vc.n) ^ (0.73 : ℝ)
  let c := alpha * Real.sqrt (j / 100)
  let m := c * vc.f_l_root
  let s := 50 * Real.sqrt (alpha * vc.c / (vc.aw + 4))
  let j_star := (1 + 100 * 0.007) * j / (1 + 0.007 * j)
  let m_star := (1 / 0.0228) * Real.log (1 + 0.0228 * m)
  { hue := hue, chroma := c, j := j, q := q, m := m, s := s,
    j_star := j_star, a_star := m_star * Real.cos hue_radians,
    b_star := m_star * Real.sin hue_radians }

/-- Embedding of `Cam16::from_int` (default viewing conditions). -/
noncomputable def cam16_from_int (argb : ℕ) : Cam16 :=
  cam16_from_int_in_vc argb default_viewing_conditions

/-- The adapted cone responses of `Cam16::from_xyz_in_viewing_conditions`
(lines 342-358): same matrices, but the non-linear adaptation is written
`(fl * (|x_d| / 100))^0.42`. -/
noncomputable def cam16_rgb_a_xyz (x y z : ℝ) (vc : ViewingConditions) : ℝ × ℝ × ℝ :=
  let r_c := 0.401288 * x + 0.650173 * y - 0.051461 * z
  let g_c := -0.250268 * x + 1.204414 * y + 0.045854 * z
  let b_c := -0.002079 * x + 0.048952 * y + 0.953127 * z
  let r_d := vc.rgb_d0 * r_c
  let g_d := vc.rgb_d1 * g_c
  let b_d := vc.rgb_d2 * b_c
  let r_af := (vc.fl * (|r_d| / 100)) ^ (0.42 : ℝ)
  let g_af := (vc.fl * (|g_d| / 100)) ^ (0.42 : ℝ)
  let b_af := (vc.fl * (|b_d| / 100)) ^ (0.42 : ℝ)
  (rust_signum r_d * 400 * r_af / (r_af + 27.13),
   rust_signum g_d * 400 * g_af / (g_af + 27.13),
   rust_signum b_d * 400 * b_af / (b_af + 27.13))

/-- Opponent channel `a` of `Cam16::from_xyz_in_viewing_conditions`. -/
noncomputable def cam16_a_xyz (x y z : ℝ) (vc : ViewingConditions) : ℝ :=
  (11 * (cam16_rgb_a_xyz x y z vc).1 + -12 * (cam16_rgb_a_xyz x y z vc).2.1 +
    (cam16_rgb_a_xyz x y z vc).2.2) / 11

/-- Opponent channel `b` of `Cam16::from_xyz_in_viewing_conditions`. -/
noncomputable def cam16_b_xyz (x y z : ℝ) (vc : ViewingConditions) : ℝ :=
  ((cam16_rgb_a_xyz x y z vc).1 + (cam16_rgb_a_xyz x y z vc).2.1 -
    2 * (cam16_rgb_a_xyz x y z vc).2.2) / 9

/-- Auxiliary `u` of `Cam16::from_xyz_in_viewing_conditions`. -/
noncomputable def cam16_u_xyz (x y z : ℝ) (vc : ViewingConditions) : ℝ :=
  (20 * (cam16_rgb_a_xyz x y z vc).1 + 20 * (cam16_rgb_a_xyz x y z vc).2.1 +
    21 * (cam16_rgb_a_xyz x y z vc).2.2) / 20

/-- Auxiliary `p2` of `Cam16::from_xyz_in_viewing_conditions`. -/
noncomputable def cam16_p2_xyz (x y z : ℝ) (vc : ViewingConditions) : ℝ :=
  (40 * (cam16_rgb_a_xyz x y z vc).1 + 20 * (cam16_rgb_a_xyz x y z vc).2.1 +
    (cam16_rgb_a_xyz x y z vc).2.2) / 20

/-- The hue computed by `Cam16::from_xyz_in_viewing_conditions` (lines
370-378): this path uses the two-argument `b.atan2(a)`. -/
noncomputable def cam16_hue_xyz (x y z : ℝ) (vc : ViewingConditions) : ℝ :=
  let atan2 := rust_atan2 (cam16_b_xyz x y z vc) (cam16_a_xyz x y z vc)
  let atan_degrees := atan2 * 180 / Real.pi
  if atan_degrees < 0 then atan_degrees + 360
  else if atan_degrees ≥ 360 then atan_degrees - 360
  else atan_degrees

/-- Embedding of `Cam16::from_xyz_in_viewing_conditions` (lines 336-419).
NOTE the eccentricity factor is `(1/4) * (cos(...) + 3.8)` here (line 393)
while `from_int_in_viewing_conditions` uses `0.25 * cos(...) + 3.8` (line
147), and the UCS `m_star` is `ln(m * 0.0228) / 0.0228` here (line 404)
while `from_int_in_viewing_conditions` uses `(1/0.0228) * ln(1 + 0.0228 m)`
(line 155). -/
noncomputable def cam16_from_xyz_in_vc (x y z : ℝ) (vc : ViewingConditions) : Cam16 :=
  let a := cam16_a_xyz x y z vc
  let b := cam16_b_xyz x y z vc
  let u := cam16_u_xyz x y z vc
  let p2 := cam16_p2_xyz x y z vc
  let hue := cam16_hue_xyz x y z vc
  let hue_radians := hue * Real.pi / 180
  let ac := p2 * vc.nbb
  let j := 100 * (ac / vc.aw) ^ (vc.c * vc.z)
  let q := (4 / vc.c) * Real.sqrt (j / 100) * (vc.aw + 4) * vc.f_l_root
  let hue_prime := if hue < 20.14 then hue + 360 else hue
  let e_hue := (1 / 4) * (Real.cos (hue_prime * Real.pi / 180 + 2) + 3.8)
  let p1 := 50000 / 13 * e_hue * vc.nc * vc.ncb
  let t := p1 * Real.sqrt (a ^ 2 + b ^ 2) / (u + 0.305)
  let alpha := t ^ (0.9 : ℝ) * (1.64 - (0.29 : ℝ) ^ vc.n) ^ (0.73 : ℝ)
  let c := alpha * Real.sqrt (j / 100)
  let m := c * vc.f_l_root
  let s := 50 * Real.sqrt (alpha * vc.c / (vc.aw + 4))
  let j_star := (1 + 100 * 0.007) * j / (1 + 0.007 * j)
  let m_star := Real.log (m * 0.0228) / 0.0228
  { hue := hue, chroma := c, j := j, q := q, m := m, s := s,
    j_star := j_star, a_star := m_star * Real.cos hue_radians,
    b_star := m_star * Real.sin hue_radians }

/-- Embedding of `Cam16::from_jch_in_viewing_conditions` (lines 199-228). -/
noncomputable def cam16_from_jch_in_vc (j chroma hue : ℝ) (vc : ViewingConditions) : Cam16 :=
  let q := (4 / vc.c) * Real.sqrt (j / 100) * (vc.aw + 4) * vc.f_l_root
  let m := chroma * vc.f_l_root
  let alpha := chroma / Real.sqrt (j / 100)
  let s := 50 * Real.sqrt (alpha * vc.c / (vc.aw + 4))
  let hue_radians := hue * Real.pi / 180
  let j_star := (1 + 100 * 0.007) * j / (1 + 0.007 * j)
  let m_star := (1 / 0.0228) * Real.log (1 + 0.0228 * m)
  { hue := hue, chroma := chroma, j := j, q := q, m := m, s := s,
    j_star := j_star, a_star := m_star * Real.cos hue_radians,
    b_star := m_star * Real.sin hue_radians }

/-- Embedding of `Cam16::from_ucs_in_viewing_conditions` (lines 257-274).
NOTE line 266 of the source reads `(m * 0.0228).exp() - 1.0 / 0.0228`,
which is `exp(0.0228 m) - (1/0.0228)`, and line 268 uses the one-argument
`(b / a).atan()` with only a negative wrap. -/
noncomputable def cam16_from_ucs_in_vc (j_star a_star b_star : ℝ)
    (vc : ViewingConditions) : Cam16 :=
  let a := a_star
  let b := b_star
  let m := Real.sqrt (a * a + b * b)
  let big_m := Real.exp (m * 0.0228) - 1 / 0.0228
  let c := big_m / vc.f_l_root
  let h0 := Real.arctan (b / a) * (180 / Real.pi)
  let h := if h0 < 0 then h0 + 360 else h0
  let j := j_star / (1 - (j_star - 100) * 0.007)
  cam16_from_jch_in_vc j c h vc

/-! ## hct/hct.rs -/

/-- Embedding of the `Hct` struct. -/
structure Hct where
  hue : ℝ
  chroma : ℝ
  tone : ℝ
  argb : ℕ

/-- Embedding of `Hct::from_int`: builds the struct and runs
`set_hct_from_int`, which sets hue/chroma from the forward CAM16 transform
under default viewing conditions, the tone from `lstar_from_argb`, and
stores the input color itself in the `argb` field. -/
noncomputable def Hct.from_int (argb : ℕ) : Hct :=
  { hue := (cam16_from_int argb).hue
    chroma := (cam16_from_int argb).chroma
    tone := lstar_from_argb argb
    argb := argb }

/-- Embedding of `Hct::to_int`: returns the cached `argb` field. -/
def Hct.to_int (h : Hct) : ℕ := h.argb

/-- Claim C5: for every valid packed ARGB color `c`,
`Hct::from_int(c).to_int() == c` — the cached device color is exactly the
input color and `to_int` returns that cache unchanged. -/
theorem c5_hct_int_roundtrip (c : ℕ) (_h : c < 2 ^ 32) :
    (Hct.from_int c).to_int = c := rfl

/-- Witness for claim C5 at the concrete color `0xFF123456`. -/
theorem c5_hct_int_roundtrip_witness :
    (0xFF123456 : ℕ) < 2 ^ 32 ∧ (Hct.from_int 0xFF123456).to_int = 0xFF123456 :=
  ⟨by norm_num, c5_hct_int_roundtrip 0xFF123456 (by norm_num)⟩

/-! ## palettes/tonal_palette.rs

`TonalPalette` calls `Hct::from_hct`, which is
`Hct::from_int(solve_to_int(hue, chroma, tone))`; `solve_to_int` lives in
`hct/hct_solver.rs`, which is not among the provided sources.  The
tonal-palette embeddings are therefore parameterized by the renderer
`g : ℝ → ℝ → ℝ → Hct` standing for `Hct::from_hct`; every theorem below
holds for an arbitrary renderer, hence in particular for the real solver.
-/

/-- Embedding of `Hct::from_hct` given a solver `s` standing for the absent
`solve_to_int`: `Hct::from_int(solve_to_int(hue, chroma, tone))`. -/
noncomputable def hct_from_hct_with (s : ℝ → ℝ → ℝ → ℕ) (hue chroma tone : ℝ) : Hct :=
  Hct.from_int (s hue chroma tone)

/-- Embedding of the `TonalPalette` struct.  The `HashMap<u32, u32>` cache
is modelled extensionally as a function `ℕ → Option ℕ`. -/
structure TonalPalette where
  cache : ℕ → Option ℕ
  hue : ℝ
  chroma : ℝ
  key_color : Hct

/-- Embedding of `TonalPalette::tone` in release semantics: the
`debug_assert!(tone <= 100)` is compiled out of release builds and is
modelled as absent, so every `u32` tone takes the
`cache.entry(tone).or_insert_with(..)` path: return the cached color on a
hit, otherwise render `Hct::from_hct(hue, chroma, tone as f64).to_int()`,
store it under key `tone`, and return it.  The renderer `g` stands for
`Hct::from_hct`. -/
noncomputable def TonalPalette.toneFn (g : ℝ → ℝ → ℝ → Hct) (p : TonalPalette)
    (tone : ℕ) : ℕ × TonalPalette :=
  match p.cache tone with
  | some v => (v, p)
  | none =>
    let v := (g p.hue p.chroma (tone : ℝ)).to_int
    (v, { p with cache := fun k => if k = tone then some v else p.cache k })

/-- Claim C7: on any palette instance, a second call to `tone(t)` returns
the identical packed color and leaves the palette unchanged (the rendering
is taken from the memo, so it is computed at most once per instance), and
after the first call the memo holds the returned color under key `t`. -/
theorem c7_tone_memoized (g : ℝ → ℝ → ℝ → Hct) (p : TonalPalette) (t : ℕ) :
    TonalPalette.toneFn g (TonalPalette.toneFn g p t).2 t = TonalPalette.toneFn g p t
      ∧ (TonalPalette.toneFn g p t).2.cache t = some (TonalPalette.toneFn g p t).1 := by
  cases h : p.cache t <;> simp [TonalPalette.toneFn, h]

/-- Claim C10: in release builds the `tone <= 100` precondition is not
enforced: for any `t > 100` (uncached), `tone(t)` does not fail — it renders
`Hct::from_hct(hue, chroma, t)` and memoizes the result under key `t` like
any in-range tone. -/
theorem c10_tone_out_of_range (g : ℝ → ℝ → ℝ → Hct) (p : TonalPalette) (t : ℕ)
    (_h1 : 100 < t) (h2 : p.cache t = none) :
    (TonalPalette.toneFn g p t).1 = (g p.hue p.chroma (t : ℝ)).to_int
      ∧ (TonalPalette.toneFn g p t).2.cache t =
        some ((g p.hue p.chroma (t : ℝ)).to_int) := by
  simp [TonalPalette.toneFn, h2]

/-- A concrete renderer for the claim C10 witness: every tone maps to a
fixed gray-like value with chroma 20. -/
noncomputable def c10_renderer : ℝ → ℝ → ℝ → Hct := fun _ _ t => ⟨0, 20, t, 0⟩

/-- A concrete empty palette for the claim C10 witness. -/
noncomputable def c10_palette : TonalPalette := ⟨fun _ => none, 0, 0, ⟨0, 0, 0, 0⟩⟩

/-- Witness for claim C10 at the out-of-range tone 150. -/
theorem c10_tone_out_of_range_witness :
    100 < 150 ∧ c10_palette.cache 150 = none
      ∧ ((TonalPalette.toneFn c10_renderer c10_palette 150).1 =
          (c10_renderer c10_palette.hue c10_palette.chroma (150 : ℝ)).to_int
        ∧ (TonalPalette.toneFn c10_renderer c10_palette 150).2.cache 150 =
          some ((c10_renderer c10_palette.hue c10_palette.chroma (150 : ℝ)).to_int)) :=
  ⟨by norm_num, rfl, c10_tone_out_of_range c10_renderer c10_palette 150 (by norm_num) rfl⟩

/-- Embedding of the loop of `TonalPalette::create_key_color` (lines 70-89):
`delta` is the current `delta_int`, `left` the number of remaining loop
iterations, `best`/`smallest_delta` the mutable `smallest_delta_hct` /
`smallest_delta` state.  Each iteration first returns the current best if
the rounded target chroma equals its rounded chroma, then probes tone
`50 + delta` and afterwards tone `50 - delta`, updating the best on a
strictly smaller absolute chroma error. -/
noncomputable def keyLoop (g : ℝ → ℝ → ℝ → Hct) (hue chroma : ℝ) :
    ℕ → ℕ → Hct → ℝ → Hct
  | _, 0, best, _ => best
  | delta, left + 1, best, smallest_delta =>
    if rust_round chroma = rust_round best.chroma then best
    else
      let hct_add := g hue chroma (50 + (delta : ℝ))
      let hct_add_delta := |hct_add.chroma - chroma|
      let best1 := if hct_add_delta < smallest_delta then hct_add else best
      let sd1 := if hct_add_delta < smallest_delta then hct_add_delta else smallest_delta
      let hct_subtract := g hue chroma (50 - (delta : ℝ))
      let hct_subtract_delta := |hct_subtract.chroma - chroma|
      let best2 := if hct_subtract_delta < sd1 then hct_subtract else best1
      let sd2 := if hct_subtract_delta < sd1 then hct_subtract_delta else sd1
      keyLoop g hue chroma (delta + 1) left best2 sd2

/-- Number of `Hct::from_hct` evaluations performed by the loop of
`create_key_color` from a given state (two per iteration that does not
return early). -/
noncomputable def keyLoopCount (g : ℝ → ℝ → ℝ → Hct) (hue chroma : ℝ) :
    ℕ → ℕ → Hct → ℝ → ℕ
  | _, 0, _, _ => 0
  | delta, left + 1, best, smallest_delta =>
    if rust_round chroma = rust_round best.chroma then 0
    else
      let hct_add := g hue chroma (50 + (delta : ℝ))
      let hct_add_delta := |hct_add.chroma - chroma|
      let best1 := if hct_add_delta < smallest_delta then hct_add else best
      let sd1 := if hct_add_delta < smallest_delta then hct_add_delta else smallest_delta
      let hct_subtract := g hue chroma (50 - (delta : ℝ))
      let hct_subtract_delta := |hct_subtract.chroma - chroma|
      let best2 := if hct_subtract_delta < sd1 then hct_subtract else best1
      let sd2 := if hct_subtract_delta < sd1 then hct_subtract_delta else sd1
      2 + keyLoopCount g hue chroma (delta + 1) left best2 sd2

/-- Embedding of `TonalPalette::create_key_color` (lines 65-92): start at
tone 50 and run the loop for `delta_int in 1..50` with the renderer `g`
standing for `Hct::from_hct`. -/
noncomputable def create_key_color (g : ℝ → ℝ → ℝ → Hct) (hue chroma : ℝ) : Hct :=
  keyLoop g hue chroma 1 49 (g hue chroma 50) |(g hue chroma 50).chroma - chroma|

/-- Total number of `Hct::from_hct` evaluations performed by
`create_key_color` (the initial tone-50 probe plus the loop's). -/
noncomputable def create_key_color_count (g : ℝ → ℝ → ℝ → Hct) (hue chroma : ℝ) : ℕ :=
  1 + keyLoopCount g hue chroma 1 49 (g hue chroma 50) |(g hue chroma 50).chroma - chroma|

/-- The tones probed by the loop of `create_key_color` when no early return
fires, in evaluation order: `50 + delta` before `50 - delta` for each delta. -/
noncomputable def segTones : ℕ → ℕ → List ℝ
  | _, 0 => []
  | delta, left + 1 => (50 + (delta : ℝ)) :: (50 - (delta : ℝ)) :: segTones (delta + 1) left

/-- All tones `create_key_color` can probe, in evaluation order: the start
tone 50, then `51, 49, 52, 48, …, 99, 1`. -/
noncomputable def probe_tones : List ℝ := 50 :: segTones 1 49

/-- One best-candidate update of the key-color search: replace the running
best exactly when the new probe has a strictly smaller absolute chroma
error (so an earlier candidate wins ties). -/
noncomputable def keyStep (g : ℝ → ℝ → ℝ → Hct) (hue chroma : ℝ)
    (acc : Hct × ℝ) (t : ℝ) : Hct × ℝ :=
  let h := g hue chroma t
  if |h.chroma - chroma| < acc.2 then (h, |h.chroma - chroma|) else acc

/-- First-wins minimizer over the full probe sequence: fold the strict
best-update over tones `51, 49, 52, 48, …` starting from the tone-50 probe. -/
noncomputable def best_over_probes (g : ℝ → ℝ → ℝ → Hct) (hue chroma : ℝ) : Hct :=
  (List.foldl (keyStep g hue chroma)
    (g hue chroma 50, |(g hue chroma 50).chroma - chroma|) (segTones 1 49)).1

/-- The rounded chromas of all probes, used to state that no probe ever
round-matches the target. -/
noncomputable def probe_rounds (g : ℝ → ℝ → ℝ → Hct) (hue chroma : ℝ) : List ℤ :=
  probe_tones.map fun t => rust_round ((g hue chroma t).chroma)

lemma segTones_length (delta left : ℕ) : (segTones delta left).length = 2 * left := by
  induction left generalizing delta with
  | zero => simp [segTones]
  | succ n ih => simp [segTones, ih]; ring

lemma keyLoop_pair_step (g : ℝ → ℝ → ℝ → Hct) (hue chroma : ℝ) (b : Hct) (s : ℝ)
    (t1 t2 : ℝ) :
    ((if |(g hue chroma t2).chroma - chroma| <
          (if |(g hue chroma t1).chroma - chroma| < s
            then |(g hue chroma t1).chroma - chroma| else s)
        then g hue chroma t2
        else (if |(g hue chroma t1).chroma - chroma| < s then g hue chroma t1 else b)),
      (if |(g hue chroma t2).chroma - chroma| <
          (if |(g hue chroma t1).chroma - chroma| < s
            then |(g hue chroma t1).chroma - chroma| else s)
        then |(g hue chroma t2).chroma - chroma|
        else (if |(g hue chroma t1).chroma - chroma| < s
          then |(g hue chroma t1).chroma - chroma| else s))) =
      keyStep g hue chroma (keyStep g hue chroma (b, s) t1) t2 := by
  by_cases h1 : |(g hue chroma t1).chroma - chroma| < s
  · by_cases h2 : |(g hue chroma t2).chroma - chroma| < |(g hue chroma t1).chroma - chroma| <;>
      simp [keyStep, h1, h2]
  · by_cases h2 : |(g hue chroma t2).chroma - chroma| < s <;>
      simp [keyStep, h1, h2]

lemma keyStep_mem (g : ℝ → ℝ → ℝ → Hct) (hue chroma : ℝ) (acc : Hct × ℝ) (t : ℝ) :
    (keyStep g hue chroma acc t).1 = g hue chroma t
      ∨ (keyStep g hue chroma acc t).1 = acc.1 := by
  simp only [keyStep]
  split_ifs <;> simp

lemma keyLoop_eq_foldl (g : ℝ → ℝ → ℝ → Hct) (hue chroma : ℝ) (left : ℕ) :
    ∀ (delta : ℕ) (best : Hct) (sd : ℝ),
      rust_round best.chroma ≠ rust_round chroma →
      (∀ t ∈ segTones delta left, rust_round ((g hue chroma t).chroma) ≠ rust_round chroma) →
      keyLoop g hue chroma delta left best sd =
          (List.foldl (keyStep g hue chroma) (best, sd) (segTones delta left)).1
        ∧ keyLoopCount g hue chroma delta left best sd = 2 * left := by
  induction left with
  | zero => intro delta best sd _ _; simp [keyLoop, keyLoopCount, segTones]
  | succ n ih =>
    intro delta best sd hbest hall
    have hcond : ¬(rust_round chroma = rust_round best.chroma) := fun h => hbest h.symm
    have hadd : rust_round ((g hue chroma (50 + (delta : ℝ))).chroma) ≠ rust_round chroma :=
      hall _ (by simp [segTones])
    have hsub : rust_round ((g hue chroma (50 - (delta : ℝ))).chroma) ≠ rust_round chroma :=
      hall _ (by simp [segTones])
    have htail : ∀ t ∈ segTones (delta + 1) n,
        rust_round ((g hue chroma t).chroma) ≠ rust_round chroma := by
      intro t ht; exact hall t (by simp [segTones, ht])
    have hbest2 : rust_round (keyStep g hue chroma
        (keyStep g hue chroma (best, sd) (50 + (delta : ℝ)))
          (50 - (delta : ℝ))).1.chroma ≠ rust_round chroma := by
      rcases keyStep_mem g hue chroma
          (keyStep g hue chroma (best, sd) (50 + (delta : ℝ))) (50 - (delta : ℝ)) with
        h | h
      · rw [h]; exact hsub
      · rw [h]
        rcases keyStep_mem g hue chroma (best, sd) (50 + (delta : ℝ)) with h2 | h2
        · rw [h2]; exact hadd
        · rw [h2]; exact hbest
    have ihgoal := ih (delta + 1)
      (keyStep g hue chroma (keyStep g hue chroma (best, sd) (50 + (delta : ℝ)))
        (50 - (delta : ℝ))).1
      (keyStep g hue chroma (keyStep g hue chroma (best, sd) (50 + (delta : ℝ)))
        (50 - (delta : ℝ))).2
      hbest2 htail
    have hstep1 : keyLoop g hue chroma delta (n + 1) best sd =
        keyLoop g hue chroma (delta + 1) n
          (keyStep g hue chroma (keyStep g hue chroma (best, sd) (50 + (delta : ℝ)))
            (50 - (delta : ℝ))).1
          (keyStep g hue chroma (keyStep g hue chroma (best, sd) (50 + (delta : ℝ)))
            (50 - (delta : ℝ))).2 := by
      rw [← keyLoop_pair_step g hue chroma best sd (50 + (delta : ℝ)) (50 - (delta : ℝ))]
      simp only [keyLoop, if_neg hcond]
    have hstep2 : keyLoopCount g hue chroma delta (n + 1) best sd =
        2 + keyLoopCount g hue chroma (delta + 1) n
          (keyStep g hue chroma (keyStep g hue chroma (best, sd) (50 + (delta : ℝ)))
            (50 - (delta : ℝ))).1
          (keyStep g hue chroma (keyStep g hue chroma (best, sd) (50 + (delta : ℝ)))
            (50 - (delta : ℝ))).2 := by
      rw [← keyLoop_pair_step g hue chroma best sd (50 + (delta : ℝ)) (50 - (delta : ℝ))]
      simp only [keyLoopCount, if_neg hcond]
    constructor
    · rw [hstep1, ihgoal.1]
      rw [show segTones delta (n + 1) =
          (50 + (delta : ℝ)) :: (50 - (delta : ℝ)) :: segTones (delta + 1) n from rfl,
        List.foldl_cons, List.foldl_cons]
    · rw [hstep2, ihgoal.2]; ring

lemma keyLoop_succ (g : ℝ → ℝ → ℝ → Hct) (hue chroma : ℝ) (delta left : ℕ)
    (best : Hct) (sd : ℝ) :
    keyLoop g hue chroma delta (left + 1) best sd =
      if rust_round chroma = rust_round best.chroma then best
      else keyLoop g hue chroma (delta + 1) left
        (if |(g hue chroma (50 - (delta : ℝ))).chroma - chroma| <
            (if |(g hue chroma (50 + (delta : ℝ))).chroma - chroma| < sd
              then |(g hue chroma (50 + (delta : ℝ))).chroma - chroma| else sd)
          then g hue chroma (50 - (delta : ℝ))
          else (if |(g hue chroma (50 + (delta : ℝ))).chroma - chroma| < sd
            then g hue chroma (50 + (delta : ℝ)) else best))
        (if |(g hue chroma (50 - (delta : ℝ))).chroma - chroma| <
            (if |(g hue chroma (50 + (delta : ℝ))).chroma - chroma| < sd
              then |(g hue chroma (50 + (delta : ℝ))).chroma - chroma| else sd)
          then |(g hue chroma (50 - (delta : ℝ))).chroma - chroma|
          else (if |(g hue chroma (50 + (delta : ℝ))).chroma - chroma| < sd
            then |(g hue chroma (50 + (delta : ℝ))).chroma - chroma| else sd)) := rfl

lemma keyLoopCount_succ (g : ℝ → ℝ → ℝ → Hct) (hue chroma : ℝ) (delta left : ℕ)
    (best : Hct) (sd : ℝ) :
    keyLoopCount g hue chroma delta (left + 1) best sd =
      if rust_round chroma = rust_round best.chroma then 0
      else 2 + keyLoopCount g hue chroma (delta + 1) left
        (if |(g hue chroma (50 - (delta : ℝ))).chroma - chroma| <
            (if |(g hue chroma (50 + (delta : ℝ))).chroma - chroma| < sd
              then |(g hue chroma (50 + (delta : ℝ))).chroma - chroma| else sd)
          then g hue chroma (50 - (delta : ℝ))
          else (if |(g hue chroma (50 + (delta : ℝ))).chroma - chroma| < sd
            then g hue chroma (50 + (delta : ℝ)) else best))
        (if |(g hue chroma (50 - (delta : ℝ))).chroma - chroma| <
            (if |(g hue chroma (50 + (delta : ℝ))).chroma - chroma| < sd
              then |(g hue chroma (50 + (delta : ℝ))).chroma - chroma| else sd)
          then |(g hue chroma (50 - (delta : ℝ))).chroma - chroma|
          else (if |(g hue chroma (50 + (delta : ℝ))).chroma - chroma| < sd
            then |(g hue chroma (50 + (delta : ℝ))).chroma - chroma| else sd)) := rfl

lemma rust_round_of_nonneg (x : ℝ) (z : ℤ) (h0 : 0 ≤ x) (h1 : (z : ℝ) ≤ x + 1 / 2)
    (h2 : x + 1 / 2 < z + 1) : rust_round x = z := by
  unfold rust_round
  rw [if_neg (not_lt.mpr h0)]
  exact Int.floor_eq_iff.mpr ⟨h1, h2⟩

/-- Amended claim C6: the key-color search starts at tone 50 and returns it
immediately when its rounded chroma equals the rounded target; each loop
iteration first re-checks the current best against the rounded target and
stops early on a match, then probes tone `50+delta` before `50-delta`,
keeping the candidate with the strictly smallest absolute chroma error (so
the earlier candidate — in particular the `+delta` probe at equal delta —
wins ties); when no rounded match ever occurs the search exhausts deltas
1–49 and returns the first-found minimizer over the 99-tone probe sequence
`50, 51, 49, 52, 48, …, 99, 1`, having evaluated `Hct::from_hct` 99 times
(the start plus two per delta) — not 50 times as claimed. -/
theorem c6_amended (g : ℝ → ℝ → ℝ → Hct) (hue chroma : ℝ) :
    (rust_round ((g hue chroma 50).chroma) = rust_round chroma →
        create_key_color g hue chroma = g hue chroma 50)
      ∧ (rust_round chroma ∉ probe_rounds g hue chroma →
        create_key_color g hue chroma = best_over_probes g hue chroma
          ∧ create_key_color_count g hue chroma = 99)
      ∧ probe_tones.length = 99 := by
  refine ⟨?_, ?_, ?_⟩
  · intro h
    show keyLoop g hue chroma 1 49 _ _ = _
    rw [show (49 : ℕ) = 48 + 1 from rfl, keyLoop_succ, if_pos h.symm]
  · intro h
    have hbest : rust_round ((g hue chroma 50).chroma) ≠ rust_round chroma := by
      intro he
      apply h
      simp only [probe_rounds]
      rw [← he]
      exact List.mem_map_of_mem _ (by simp [probe_tones])
    have hall : ∀ t ∈ segTones 1 49,
        rust_round ((g hue chroma t).chroma) ≠ rust_round chroma := by
      intro t ht he
      apply h
      simp only [probe_rounds]
      rw [← he]
      exact List.mem_map_of_mem _ (by simp [probe_tones, ht])
    have key := keyLoop_eq_foldl g hue chroma 49 1 (g hue chroma 50)
      |(g hue chroma 50).chroma - chroma| hbest hall
    refine ⟨key.1, ?_⟩
    show 1 + _ = 99
    rw [key.2]
  · simp only [probe_tones, List.length_cons, segTones_length]

/-- A concrete renderer (constant chroma 20) exercising the no-match branch
of the amended claim C6. -/
noncomputable def c6_flat_renderer : ℝ → ℝ → ℝ → Hct := fun _ _ t => ⟨0, 20, t, 0⟩

/-- Witness for the amended claim C6: with a renderer of constant chroma 20
and target chroma 0 no probe ever round-matches, so the search returns the
first-found minimizer over the full 99-probe sequence after 99 renderer
evaluations. -/
theorem c6_amended_witness :
    rust_round (0 : ℝ) ∉ probe_rounds c6_flat_renderer 0 0
      ∧ (create_key_color c6_flat_renderer 0 0 = best_over_probes c6_flat_renderer 0 0
        ∧ create_key_color_count c6_flat_renderer 0 0 = 99) := by
  have h20 : rust_round (20 : ℝ) = 20 :=
    rust_round_of_nonneg 20 20 (by norm_num) (by norm_num) (by norm_num)
  have h0 : rust_round (0 : ℝ) = 0 :=
    rust_round_of_nonneg 0 0 (by norm_num) (by norm_num) (by norm_num)
  have h : rust_round (0 : ℝ) ∉ probe_rounds c6_flat_renderer 0 0 := by
    simp only [probe_rounds, List.mem_map, c6_flat_renderer]
    intro hmem
    obtain ⟨t, _, he⟩ := hmem
    rw [h20, h0] at he
    exact absurd he (by decide)
  exact ⟨h, (c6_amended c6_flat_renderer 0 0).2.1 h⟩

/-- A concrete renderer for the claim C6 counterexample: chroma 10.1 at tone
51, chroma 10.4 at tone 52, chroma 20 everywhere else. -/
noncomputable def c6_probe_renderer : ℝ → ℝ → ℝ → Hct :=
  fun _ _ t => ⟨0, if t = 51 then 10.1 else if t = 52 then 10.4 else 20, t, 0⟩

/-- Counterexample to claim C6 as stated: with target chroma 10.4 and the
renderer above, the search returns the tone-51 candidate (chroma 10.1) after
only 3 renderer evaluations — the delta-2 iteration's round-match check
stops it — even though the tone-52 probe among deltas 1..49 has a strictly
smaller (zero) chroma error; so the search neither keeps the best candidate
over all deltas 1–49 nor performs 50 probes. -/
theorem c6_counterexample :
    create_key_color c6_probe_renderer 0 10.4 = c6_probe_renderer 0 10.4 51
      ∧ |(c6_probe_renderer 0 10.4 52).chroma - 10.4| <
          |(create_key_color c6_probe_renderer 0 10.4).chroma - 10.4|
      ∧ create_key_color_count c6_probe_renderer 0 10.4 = 3 := by
  have hr104 : rust_round (10.4 : ℝ) = 10 :=
    rust_round_of_nonneg _ _ (by norm_num) (by norm_num) (by norm_num)
  have hr101 : rust_round (10.1 : ℝ) = 10 :=
    rust_round_of_nonneg _ _ (by norm_num) (by norm_num) (by norm_num)
  have hr20 : rust_round (20 : ℝ) = 20 :=
    rust_round_of_nonneg _ _ (by norm_num) (by norm_num) (by norm_num)
  have e50 : c6_probe_renderer 0 10.4 50 = ⟨0, 20, 50, 0⟩ := by
    norm_num [c6_probe_renderer]
  have e51 : c6_probe_renderer 0 10.4 (50 + ((1 : ℕ) : ℝ)) = ⟨0, 10.1, 51, 0⟩ := by
    norm_num [c6_probe_renderer]
  have e49 : c6_probe_renderer 0 10.4 (50 - ((1 : ℕ) : ℝ)) = ⟨0, 20, 49, 0⟩ := by
    norm_num [c6_probe_renderer]
  have e51p : c6_probe_renderer 0 10.4 51 = ⟨0, 10.1, 51, 0⟩ := by
    norm_num [c6_probe_renderer]
  have e52 : c6_probe_renderer 0 10.4 52 = ⟨0, 10.4, 52, 0⟩ := by
    norm_num [c6_probe_renderer]
  have habs1 : |(10.1 : ℝ) - 10.4| = 0.3 := by
    rw [show (10.1 : ℝ) - 10.4 = -(0.3) by norm_num, abs_neg,
      abs_of_pos (show (0 : ℝ) < 0.3 by norm_num)]
  have habs2 : |(20 : ℝ) - 10.4| = 9.6 := by
    rw [show (20 : ℝ) - 10.4 = 9.6 by norm_num,
      abs_of_pos (show (0 : ℝ) < 9.6 by norm_num)]
  have hc1 : ¬(rust_round (10.4 : ℝ) = rust_round ((⟨0, 20, 50, 0⟩ : Hct)).chroma) := by
    show ¬(rust_round (10.4 : ℝ) = rust_round (20 : ℝ))
    rw [hr104, hr20]; decide
  have hc2 : rust_round (10.4 : ℝ) = rust_round ((⟨0, 10.1, 51, 0⟩ : Hct)).chroma := by
    show rust_round (10.4 : ℝ) = rust_round (10.1 : ℝ)
    rw [hr104, hr101]
  have hmain : create_key_color c6_probe_renderer 0 10.4 = c6_probe_renderer 0 10.4 51 := by
    show keyLoop c6_probe_renderer 0 10.4 1 49 (c6_probe_renderer 0 10.4 50)
      |(c6_probe_renderer 0 10.4 50).chroma - 10.4| = _
    rw [e50, e51p,
      show |((⟨0, 20, 50, 0⟩ : Hct)).chroma - (10.4 : ℝ)| = 9.6 from habs2]
    show keyLoop c6_probe_renderer 0 10.4 1 (48 + 1) (⟨0, 20, 50, 0⟩ : Hct) 9.6 =
      (⟨0, 10.1, 51, 0⟩ : Hct)
    rw [keyLoop_succ, if_neg hc1, e51, e49]
    simp only [show ((⟨0, 10.1, 51, 0⟩ : Hct)).chroma = 10.1 from rfl,
      show ((⟨0, 20, 49, 0⟩ : Hct)).chroma = 20 from rfl, habs1, habs2,
      show ((0.3 : ℝ) < 9.6) = True from eq_true (by norm_num),
      show ((9.6 : ℝ) < 0.3) = False from eq_false (by norm_num), if_true, if_false]
    show keyLoop c6_probe_renderer 0 10.4 (1 + 1) (47 + 1) (⟨0, 10.1, 51, 0⟩ : Hct) 0.3 = _
    rw [keyLoop_succ, if_pos hc2]
  have hcount : create_key_color_count c6_probe_renderer 0 10.4 = 3 := by
    show 1 + keyLoopCount c6_probe_renderer 0 10.4 1 49 (c6_probe_renderer 0 10.4 50)
      |(c6_probe_renderer 0 10.4 50).chroma - 10.4| = 3
    rw [e50,
      show |((⟨0, 20, 50, 0⟩ : Hct)).chroma - (10.4 : ℝ)| = 9.6 from habs2]
    show 1 + keyLoopCount c6_probe_renderer 0 10.4 1 (48 + 1) (⟨0, 20, 50, 0⟩ : Hct) 9.6 = 3
    rw [keyLoopCount_succ, if_neg hc1, e51, e49]
    simp only [show ((⟨0, 10.1, 51, 0⟩ : Hct)).chroma = 10.1 from rfl,
      show ((⟨0, 20, 49, 0⟩ : Hct)).chroma = 20 from rfl, habs1, habs2,
      show ((0.3 : ℝ) < 9.6) = True from eq_true (by norm_num),
      show ((9.6 : ℝ) < 0.3) = False from eq_false (by norm_num), if_true, if_false]
    show 1 + (2 + keyLoopCount c6_probe_renderer 0 10.4 (1 + 1) (47 + 1)
      (⟨0, 10.1, 51, 0⟩ : Hct) 0.3) = 3
    rw [keyLoopCount_succ, if_pos hc2]
  refine ⟨hmain, ?_, hcount⟩
  rw [hmain, e51p, e52]
  show |(10.4 : ℝ) - 10.4| < |(10.1 : ℝ) - 10.4|
  rw [sub_self, abs_zero, habs1]
  norm_num

/-! ## Divergence of the UCS round trip (claim C3) -/

/-- A concrete `ViewingConditions` value (all fields 1) for exercising the
JCh/UCS round trip; the round trip reads only `c`, `aw`, `f_l_root` of it. -/
noncomputable def c3_vc : ViewingConditions := ⟨1, 1, 1, 1, 1, 1, 1, 1, 1, 1, 1, 1⟩

/-- The chroma whose `M*` is exactly 1 when `f_l_root = 1`:
`ln(1 + 0.0228 · chroma) / 0.0228 = 1`. -/
noncomputable def c3_chroma : ℝ := (Real.exp 0.0228 - 1) / 0.0228

lemma c3_jch_a_star :
    (cam16_from_jch_in_vc 50 c3_chroma 0 c3_vc).a_star = 1 := by
  simp only [cam16_from_jch_in_vc, c3_vc, mul_one]
  have key : 1 + 0.0228 * c3_chroma = Real.exp 0.0228 := by
    unfold c3_chroma
    field_simp
  rw [key, Real.log_exp]
  norm_num [Real.cos_zero]

lemma c3_jch_b_star :
    (cam16_from_jch_in_vc 50 c3_chroma 0 c3_vc).b_star = 0 := by
  simp only [cam16_from_jch_in_vc, c3_vc]
  norm_num [Real.sin_zero]

lemma c3_ucs_chroma (j_star : ℝ) :
    (cam16_from_ucs_in_vc j_star 1 0 c3_vc).chroma = Real.exp 0.0228 - 1 / 0.0228 := by
  simp only [cam16_from_ucs_in_vc, cam16_from_jch_in_vc, c3_vc]
  rw [show (1 : ℝ) * 1 + 0 * 0 = 1 by norm_num, Real.sqrt_one]
  norm_num

/-- Divergence behind claim C3: rebuilding a Cam16 from the UCS coordinates
of `from_jch(50, chroma, 0)` does not recover the chroma — line 266 of
cam16.rs computes `exp(0.0228·M*) - (1/0.0228)` instead of the inverse
`(exp(0.0228·M*) - 1)/0.0228` of the `M*` formula, giving a negative chroma
(≈ -42.8) where the original (≈ 1.01) was positive. -/
theorem c3_divergence :
    (cam16_from_ucs_in_vc
        (cam16_from_jch_in_vc 50 c3_chroma 0 c3_vc).j_star
        (cam16_from_jch_in_vc 50 c3_chroma 0 c3_vc).a_star
        (cam16_from_jch_in_vc 50 c3_chroma 0 c3_vc).b_star c3_vc).chroma ≠ c3_chroma := by
  rw [c3_jch_a_star, c3_jch_b_star,
    c3_ucs_chroma (cam16_from_jch_in_vc 50 c3_chroma 0 c3_vc).j_star]
  intro heq
  have h1 : Real.exp 0.0228 ≤ Real.exp 1 := Real.exp_le_exp.mpr (by norm_num)
  have h2 : Real.exp 1 < 2.7182818286 := Real.exp_one_lt_d9
  have h3 : (0.0228 : ℝ) + 1 ≤ Real.exp 0.0228 := Real.add_one_le_exp 0.0228
  unfold c3_chroma at heq
  field_simp at heq
  linarith

/-! ## Divergence of the two forward transforms (claims C1 and C2) -/

lemma linearized_255 : linearized 255 = 100 := by
  have h1 : ¬(((255 : ℕ) : ℝ) / 255 ≤ 0.040449936) := by norm_num
  simp only [linearized]
  rw [if_neg h1, show ((255 : ℕ) : ℝ) / 255 = 1 by norm_num,
    show ((1 : ℝ) + 0.055) / 1.055 = 1 by norm_num, Real.one_rpow, one_mul]

/-- The X coordinate the forward transform computes for white (all linear
channels equal to 100). -/
noncomputable def white_x : ℝ := 0.41233895 * 100 + 0.35762064 * 100 + 0.18051042 * 100

/-- The Y coordinate the forward transform computes for white. -/
noncomputable def white_y : ℝ := 0.2126 * 100 + 0.7152 * 100 + 0.0722 * 100

/-- The Z coordinate the forward transform computes for white. -/
noncomputable def white_z : ℝ := 0.01932141 * 100 + 0.11916382 * 100 + 0.95034478 * 100

/-- The middle (G) cone response of white under the CAM16 matrix. -/
noncomputable def white_g_c : ℝ :=
  -0.250268 * white_x + 1.204414 * white_y + 0.045854 * white_z

lemma white_g_c_pos : 0 < white_g_c := by
  unfold white_g_c white_x white_y white_z; norm_num

/-- A `ViewingConditions` value that keeps only the middle (G) cone channel
(`rgb_d = [0, 100/g_cone(white), 0]`) and sets every scalar field to 1.
Under it the adapted cone responses of white are `(0, 400/28.13, 0)`, so the
opponent `a` is negative and `b` positive — the configuration on which
`atan(b/a)` and `atan2(b, a)` disagree. -/
noncomputable def vc_green_only : ViewingConditions :=
  { n := 1, aw := 1, nbb := 1, ncb := 1, c := 1, nc := 1,
    rgb_d0 := 0, rgb_d1 := 100 / white_g_c, rgb_d2 := 0,
    fl := 1, f_l_root := 1, z := 1 }

lemma rust_signum_hundred : rust_signum 100 = 1 := by
  unfold rust_signum
  rw [if_neg (by norm_num : ¬((100 : ℝ) < 0))]

lemma white_rgb_a_int :
    cam16_rgb_a_int 0xFFFFFFFF vc_green_only = (0, 400 / 28.13, 0) := by
  simp only [cam16_rgb_a_int, vc_green_only]
  rw [show ((0xFFFFFFFF &&& 0x00ff0000) >>> 16 : ℕ) = 255 by decide,
    show ((0xFFFFFFFF &&& 0x0000ff00) >>> 8 : ℕ) = 255 by decide,
    show ((0xFFFFFFFF &&& 0x000000ff : ℕ)) = 255 by decide,
    linearized_255,
    show (0.41233895 * (100 : ℝ) + 0.35762064 * 100 + 0.18051042 * 100) = white_x from rfl,
    show (0.2126 * (100 : ℝ) + 0.7152 * 100 + 0.0722 * 100) = white_y from rfl,
    show (0.01932141 * (100 : ℝ) + 0.11916382 * 100 + 0.95034478 * 100) = white_z from rfl,
    show (-0.250268 * white_x + 1.204414 * white_y + 0.045854 * white_z) = white_g_c from rfl]
  rw [div_mul_cancel₀ (100 : ℝ) (ne_of_gt white_g_c_pos)]
  simp only [Prod.mk.injEq]
  refine ⟨?_, ?_, ?_⟩
  · rw [zero_mul, abs_zero, mul_zero, zero_div,
      Real.zero_rpow (by norm_num : (0.42 : ℝ) ≠ 0)]
    norm_num
  · rw [abs_of_pos (show (0 : ℝ) < 100 by norm_num),
      show ((1 : ℝ) * 100) / 100 = 1 by norm_num, Real.one_rpow, rust_signum_hundred]
    norm_num
  · rw [zero_mul, abs_zero, mul_zero, zero_div,
      Real.zero_rpow (by norm_num : (0.42 : ℝ) ≠ 0)]
    norm_num

lemma white_a_int_neg : cam16_a_int 0xFFFFFFFF vc_green_only < 0 := by
  simp only [cam16_a_int, white_rgb_a_int]
  norm_num

lemma white_b_int_pos : 0 < cam16_b_int 0xFFFFFFFF vc_green_only := by
  simp only [cam16_b_int, white_rgb_a_int]
  norm_num

lemma white_ba_int :
    cam16_b_int 0xFFFFFFFF vc_green_only / cam16_a_int 0xFFFFFFFF vc_green_only =
      -(11 / 108) := by
  simp only [cam16_b_int, cam16_a_int, white_rgb_a_int]
  norm_num

lemma arctan_white_neg : Real.arctan (-(11 / 108)) < 0 := by
  have h := Real.arctan_strictMono (show (-(11 / 108) : ℝ) < 0 by norm_num)
  rwa [Real.arctan_zero] at h

/-- The hue `from_int_in_viewing_conditions` computes for white under
`vc_green_only` lies in (270, 360): `atan(b/a)` lands in the fourth
quadrant although `(a, b)` is in the second. -/
lemma white_hue_int_gt : 270 < cam16_hue_int 0xFFFFFFFF vc_green_only := by
  simp only [cam16_hue_int, white_ba_int]
  have hpi : 0 < Real.pi := Real.pi_pos
  have h1 : Real.arctan (-(11 / 108)) < 0 := arctan_white_neg
  have h2 : -(Real.pi / 2) < Real.arctan (-(11 / 108)) :=
    Real.neg_pi_div_two_lt_arctan _
  have had_neg : Real.arctan (-(11 / 108)) * 180 / Real.pi < 0 :=
    div_neg_of_neg_of_pos (mul_neg_of_neg_of_pos h1 (by norm_num)) hpi
  rw [if_pos had_neg]
  have hm : -(Real.pi / 2) * 180 < Real.arctan (-(11 / 108)) * 180 :=
    mul_lt_mul_of_pos_right h2 (by norm_num)
  have hd := (div_lt_div_iff_of_pos_right hpi).mpr hm
  rw [show -(Real.pi / 2) * 180 / Real.pi = -90 by
    rw [div_eq_iff (ne_of_gt hpi)]; ring] at hd
  linarith

lemma xyz_from_argb_white : xyz_from_argb 0xFFFFFFFF = (white_x, white_y, white_z) := by
  simp only [xyz_from_argb]
  rw [show red_from_argb 0xFFFFFFFF = 255 by decide,
    show green_from_argb 0xFFFFFFFF = 255 by decide,
    show blue_from_argb 0xFFFFFFFF = 255 by decide, linearized_255]
  rfl

lemma white_rgb_a_xyz :
    cam16_rgb_a_xyz white_x white_y white_z vc_green_only = (0, 400 / 28.13, 0) := by
  simp only [cam16_rgb_a_xyz, vc_green_only]
  rw [show (-0.250268 * white_x + 1.204414 * white_y + 0.045854 * white_z) = white_g_c
      from rfl,
    div_mul_cancel₀ (100 : ℝ) (ne_of_gt white_g_c_pos)]
  simp only [Prod.mk.injEq]
  refine ⟨?_, ?_, ?_⟩
  · rw [zero_mul, abs_zero, zero_div, mul_zero,
      Real.zero_rpow (by norm_num : (0.42 : ℝ) ≠ 0)]
    norm_num
  · rw [abs_of_pos (show (0 : ℝ) < 100 by norm_num),
      show (1 : ℝ) * (100 / 100) = 1 by norm_num, Real.one_rpow, rust_signum_hundred]
    norm_num
  · rw [zero_mul, abs_zero, zero_div, mul_zero,
      Real.zero_rpow (by norm_num : (0.42 : ℝ) ≠ 0)]
    norm_num

lemma white_a_xyz_neg : cam16_a_xyz white_x white_y white_z vc_green_only < 0 := by
  simp only [cam16_a_xyz, white_rgb_a_xyz]
  norm_num

lemma white_b_xyz_pos : 0 < cam16_b_xyz white_x white_y white_z vc_green_only := by
  simp only [cam16_b_xyz, white_rgb_a_xyz]
  norm_num

lemma white_ba_xyz :
    cam16_b_xyz white_x white_y white_z vc_green_only /
      cam16_a_xyz white_x white_y white_z vc_green_only = -(11 / 108) := by
  simp only [cam16_b_xyz, cam16_a_xyz, white_rgb_a_xyz]
  norm_num

/-- The hue `from_xyz_in_viewing_conditions` computes for white under
`vc_green_only` lies below 180: `atan2(b, a)` places the second-quadrant
opponent pair correctly. -/
lemma white_hue_xyz_lt : cam16_hue_xyz white_x white_y white_z vc_green_only < 180 := by
  have hpi : 0 < Real.pi := Real.pi_pos
  have h1 : Real.arctan (-(11 / 108)) < 0 := arctan_white_neg
  have h2 : -(Real.pi / 2) < Real.arctan (-(11 / 108)) :=
    Real.neg_pi_div_two_lt_arctan _
  have hat2 : rust_atan2 (cam16_b_xyz white_x white_y white_z vc_green_only)
      (cam16_a_xyz white_x white_y white_z vc_green_only) =
      Real.arctan (-(11 / 108)) + Real.pi := by
    unfold rust_atan2
    rw [if_neg (not_lt.mpr (le_of_lt white_a_xyz_neg)), if_pos white_a_xyz_neg,
      if_pos (le_of_lt white_b_xyz_pos), white_ba_xyz]
  simp only [cam16_hue_xyz, hat2]
  have hval_pos : 0 < (Real.arctan (-(11 / 108)) + Real.pi) * 180 / Real.pi := by
    apply div_pos ?_ hpi
    apply mul_pos ?_ (by norm_num : (0 : ℝ) < 180)
    nlinarith
  have hval_lt : (Real.arctan (-(11 / 108)) + Real.pi) * 180 / Real.pi < 180 := by
    rw [div_lt_iff₀ hpi]
    nlinarith
  rw [if_neg (not_lt.mpr (le_of_lt hval_pos)), if_neg (by push_neg; linarith)]
  exact hval_lt

/-- The hue claim C2 prescribes, built from the spec's words: the
two-argument `atan2(b, a)` of the opponent channels of
`from_int_in_viewing_conditions`, converted to degrees and normalized into
[0, 360) by wrapping negatives by +360 and values ≥ 360 by -360. -/
noncomputable def cam16_hue_atan2_spec (argb : ℕ) (vc : ViewingConditions) : ℝ :=
  let atan_degrees := rust_atan2 (cam16_b_int argb vc) (cam16_a_int argb vc) * 180 / Real.pi
  if atan_degrees < 0 then atan_degrees + 360
  else if atan_degrees ≥ 360 then atan_degrees - 360
  else atan_degrees

lemma white_hue_atan2_spec_lt : cam16_hue_atan2_spec 0xFFFFFFFF vc_green_only < 180 := by
  have hpi : 0 < Real.pi := Real.pi_pos
  have h1 : Real.arctan (-(11 / 108)) < 0 := arctan_white_neg
  have h2 : -(Real.pi / 2) < Real.arctan (-(11 / 108)) :=
    Real.neg_pi_div_two_lt_arctan _
  have hat2 : rust_atan2 (cam16_b_int 0xFFFFFFFF vc_green_only)
      (cam16_a_int 0xFFFFFFFF vc_green_only) =
      Real.arctan (-(11 / 108)) + Real.pi := by
    unfold rust_atan2
    rw [if_neg (not_lt.mpr (le_of_lt white_a_int_neg)), if_pos white_a_int_neg,
      if_pos (le_of_lt white_b_int_pos), white_ba_int]
  simp only [cam16_hue_atan2_spec, hat2]
  have hval_pos : 0 < (Real.arctan (-(11 / 108)) + Real.pi) * 180 / Real.pi := by
    apply div_pos ?_ hpi
    apply mul_pos ?_ (by norm_num : (0 : ℝ) < 180)
    nlinarith
  have hval_lt : (Real.arctan (-(11 / 108)) + Real.pi) * 180 / Real.pi < 180 := by
    rw [div_lt_iff₀ hpi]
    nlinarith
  rw [if_neg (not_lt.mpr (le_of_lt hval_pos)), if_neg (by push_neg; linarith)]
  exact hval_lt

/-- Divergence behind claim C2: `Cam16::from_int_in_viewing_conditions`
computes the hue as `atan(b/a)` (line 128 of cam16.rs names the one-argument
arc tangent `atan2`), which for white under `vc_green_only` — where the
opponent pair lies in the second quadrant — lands in (270, 360), while the
true `atan2(b, a)` normalization the claim states lies in (90, 180). -/
theorem c2_divergence :
    cam16_hue_int 0xFFFFFFFF vc_green_only ≠
      cam16_hue_atan2_spec 0xFFFFFFFF vc_green_only := by
  have h1 := white_hue_int_gt
  have h2 := white_hue_atan2_spec_lt
  intro h
  rw [h] at h1
  linarith

/-- Divergence behind claim C1: the nine correlates of
`Cam16::from_int_in_viewing_conditions(white)` differ from those of
`Cam16::from_xyz_in_viewing_conditions` applied to the XYZ coordinates of
white under the same viewing conditions — already the hue disagrees (the
`from_int` path computes `atan(b/a)`, landing in (270, 360), the `from_xyz`
path computes `atan2(b, a)`, landing in (90, 180)). -/
theorem c1_divergence :
    cam16_from_int_in_vc 0xFFFFFFFF vc_green_only ≠
      cam16_from_xyz_in_vc (xyz_from_argb 0xFFFFFFFF).1
        (xyz_from_argb 0xFFFFFFFF).2.1 (xyz_from_argb 0xFFFFFFFF).2.2 vc_green_only := by
  intro h
  have hh := congrArg Cam16.hue h
  rw [show (cam16_from_int_in_vc 0xFFFFFFFF vc_green_only).hue =
      cam16_hue_int 0xFFFFFFFF vc_green_only from rfl] at hh
  rw [show xyz_from_argb 0xFFFFFFFF = (white_x, white_y, white_z)
      from xyz_from_argb_white] at hh
  rw [show (cam16_from_xyz_in_vc white_x white_y white_z vc_green_only).hue =
      cam16_hue_xyz white_x white_y white_z vc_green_only from rfl] at hh
  have h1 := white_hue_int_gt
  have h2 := white_hue_xyz_lt
  rw [hh] at h1
  linarith

/-! ## The gamut solver (claim C4)

`solve_to_int` lives in `hct/hct_solver.rs`, which is not among the provided
sources; only its callers are.  It is modelled here from the specification's
external contract (spec §4.4).
-/

open scoped Classical

/-- Modelled from the spec: a fully opaque packed device color whose exact
CIE L* equals the requested tone and whose CAM16 hue (forward transform of
the repository, default viewing conditions) equals the requested hue. -/
def gamut_match (hue tone : ℝ) (argb : ℕ) : Prop :=
  argb < 2 ^ 32 ∧ alpha_from_argb argb = 255 ∧ lstar_from_argb argb = tone ∧
    (cam16_from_int argb).hue = hue

/-- Modelled from the spec: the requested chroma is achievable within the
sRGB gamut at the given hue and tone. -/
def chroma_achievable (hue tone chroma : ℝ) : Prop :=
  ∃ argb, gamut_match hue tone argb ∧ (cam16_from_int argb).chroma = chroma

/-- Modelled from the spec: the maximum chroma achievable at the given hue
and tone (supremum of the achievable chromas; the set is finite, drawn from
the 2^32 packed colors). -/
noncomputable def max_chroma (hue tone : ℝ) : ℝ :=
  sSup {c | chroma_achievable hue tone c}

/-- Modelled from the spec: the output contract of `solve_to_int` — an
opaque color with exact L* equal to the tone and CAM16 hue equal to the
requested hue, whose chroma is the requested chroma when achievable and the
maximum achievable chroma otherwise (the solver never overshoots the gamut). -/
def solve_contract (hue chroma tone : ℝ) (argb : ℕ) : Prop :=
  gamut_match hue tone argb ∧
    (cam16_from_int argb).chroma =
      (if chroma_achievable hue tone chroma then chroma else max_chroma hue tone)

/-- Modelled from the spec: `solve_to_int` (the absent hct_solver.rs),
as a choice of a color satisfying the spec's output contract whenever any
color does. -/
noncomputable def solve_to_int (hue chroma tone : ℝ) : ℕ :=
  if h : ∃ argb, solve_contract hue chroma tone argb then Classical.choose h
  else 0xFF000000

/-- Embedding of `Hct::from_hct`:
`Hct::from_int(solve_to_int(hue, chroma, tone))` with the spec-modelled
solver. -/
noncomputable def Hct.from_hct (hue chroma tone : ℝ) : Hct :=
  Hct.from_int (solve_to_int hue chroma tone)

/-- Claim C4 (with the solver modelled from the spec): whenever any packed
color satisfies the solver's output contract at the requested hue, chroma
and tone, the color `solve_to_int` returns satisfies it: it is fully
opaque, its exact CIE L* equals the requested tone, its CAM16 hue equals
the requested hue, and its chroma is the requested chroma when achievable
and the maximum achievable chroma otherwise. -/
theorem c4_solver_contract (hue chroma tone : ℝ) (n : ℕ)
    (h : solve_contract hue chroma tone n) :
    solve_contract hue chroma tone (solve_to_int hue chroma tone) := by
  unfold solve_to_int
  rw [dif_pos ⟨n, h⟩]
  exact Classical.choose_spec ⟨n, h⟩

lemma linearized_zero : linearized 0 = 0 := by
  simp only [linearized]
  rw [show ((0 : ℕ) : ℝ) / 255 = 0 by norm_num,
    if_pos (by norm_num : (0 : ℝ) ≤ 0.040449936)]
  norm_num

lemma xyz_black : xyz_from_argb 0xFF000000 = (0, 0, 0) := by
  simp only [xyz_from_argb]
  rw [show red_from_argb 0xFF000000 = 0 by decide,
    show green_from_argb 0xFF000000 = 0 by decide,
    show blue_from_argb 0xFF000000 = 0 by decide, linearized_zero]
  norm_num

lemma lstar_black : lstar_from_argb 0xFF000000 = 0 := by
  unfold lstar_from_argb
  rw [xyz_black]
  show 116 * lab_f ((0 : ℝ) / 100) - 16 = 0
  rw [show (0 : ℝ) / 100 = 0 by norm_num]
  simp only [lab_f]
  rw [if_neg (by norm_num : ¬((0 : ℝ) > 216 / 24389))]
  norm_num

lemma cam16_black_rgb_a (vc : ViewingConditions) :
    cam16_rgb_a_int 0xFF000000 vc = (0, 0, 0) := by
  simp only [cam16_rgb_a_int]
  rw [show ((0xFF000000 &&& 0x00ff0000) >>> 16 : ℕ) = 0 by decide,
    show ((0xFF000000 &&& 0x0000ff00) >>> 8 : ℕ) = 0 by decide,
    show ((0xFF000000 &&& 0x000000ff : ℕ)) = 0 by decide, linearized_zero]
  rw [show (0.41233895 * (0 : ℝ) + 0.35762064 * 0 + 0.18051042 * 0) = 0 by norm_num,
    show (0.2126 * (0 : ℝ) + 0.7152 * 0 + 0.0722 * 0) = 0 by norm_num,
    show (0.01932141 * (0 : ℝ) + 0.11916382 * 0 + 0.95034478 * 0) = 0 by norm_num,
    show (0.401288 * (0 : ℝ) + 0.650173 * 0 - 0.051461 * 0) = 0 by norm_num,
    show (-0.250268 * (0 : ℝ) + 1.204414 * 0 + 0.045854 * 0) = 0 by norm_num,
    show (-0.002079 * (0 : ℝ) + 0.048952 * 0 + 0.953127 * 0) = 0 by norm_num]
  simp [Real.zero_rpow (show (0.42 : ℝ) ≠ 0 by norm_num)]

lemma cam16_black_a (vc : ViewingConditions) : cam16_a_int 0xFF000000 vc = 0 := by
  simp only [cam16_a_int, cam16_black_rgb_a]
  norm_num

lemma cam16_black_b (vc : ViewingConditions) : cam16_b_int 0xFF000000 vc = 0 := by
  simp only [cam16_b_int, cam16_black_rgb_a]
  norm_num

lemma cam16_black_hue (vc : ViewingConditions) : cam16_hue_int 0xFF000000 vc = 0 := by
  simp only [cam16_hue_int, cam16_black_a, cam16_black_b]
  rw [zero_div, Real.arctan_zero, zero_mul, zero_div,
    if_neg (lt_irrefl 0), if_neg (by norm_num : ¬((0 : ℝ) ≥ 360))]

lemma cam16_black_chroma (vc : ViewingConditions) :
    (cam16_from_int_in_vc 0xFF000000 vc).chroma = 0 := by
  simp only [cam16_from_int_in_vc, cam16_black_a, cam16_black_b]
  rw [show (0 : ℝ) ^ 2 + 0 ^ 2 = 0 by norm_num, Real.sqrt_zero, mul_zero, zero_div,
    Real.zero_rpow (show (0.9 : ℝ) ≠ 0 by norm_num), zero_mul, zero_mul]

lemma black_gamut_match : gamut_match 0 0 0xFF000000 :=
  ⟨by norm_num, by decide, lstar_black,
    show cam16_hue_int 0xFF000000 default_viewing_conditions = 0 from
      cam16_black_hue default_viewing_conditions⟩

lemma black_contract : solve_contract 0 0 0 0xFF000000 := by
  refine ⟨black_gamut_match, ?_⟩
  rw [if_pos ⟨0xFF000000, black_gamut_match,
    cam16_black_chroma default_viewing_conditions⟩]
  exact cam16_black_chroma default_viewing_conditions

/-- Witness for claim C4 at hue 0, chroma 0, tone 0: black satisfies the
contract there, so the solver's output does too. -/
theorem c4_solver_contract_witness :
    solve_contract 0 0 0 0xFF000000 ∧ solve_contract 0 0 0 (solve_to_int 0 0 0) :=
  ⟨black_contract, c4_solver_contract 0 0 0 0xFF000000 black_contract⟩
